import Mathlib

/-!
# Upload-and-publish pipeline of `handler_upload_video.go`

A shallow embedding of the two functions of `src/handler_upload_video.go`:

* `dbVideoToSignedVideo` (lines 22-40), the link resolver, and
* `handlerUploadVideo` (lines 42-171), the upload handler.

Conventions of the embedding.

* A Go `string` is a list of characters (`GoString`); `fmt.Sprintf` with only
  `%s` verbs is list concatenation.
* A Go `error` result is modelled by `Option`/`Bool`/`Except`: the handler only
  ever tests `err != nil`.
* Every call the handler makes to a collaborator (auth, database, file system,
  media tools, object storage, the response helpers) is recorded, with its
  arguments, as an `Event` in a trace, in program order.  The *result* of each
  call is supplied by an `Env`, over which all theorems quantify.
* `defer` is modelled by lexical scopes: the code that follows a `defer`
  statement is a separate definition, and the enclosing definition runs the
  deferred call when that scope returns, in last-in-first-out order.
-/

namespace Tubely

/-! ## Strings -/

/-- Go strings, as lists of characters. -/
abbrev GoString := List Char

/-- The function `strings.Split(s, sep)` for a one-character separator (the only
call site passes `","`): the substrings between the separators, so a string
with `n` separators yields `n + 1` components, and the empty string yields one
empty component. -/
def Split (s : GoString) (sep : Char) : List GoString :=
  match s with
  | [] => [[]]
  | c :: cs =>
    if c = sep then [] :: Split cs sep
    else
      match Split cs sep with
      | [] => [[c]]
      | h :: t => (c :: h) :: t

/-! ## `base64.RawURLEncoding` -/

/-- The alphabet of `base64.URLEncoding` (RFC 4648, section 5). -/
def encodeURL : List Char :=
  "ABCDEFGHIJKLMNOPQRSTUVWXYZabcdefghijklmnopqrstuvwxyz0123456789-_".toList

/-- The table lookup `enc.encode[i]`. -/
def encodeChar (i : Nat) : Char := encodeURL.getD i 'A'

/-- The function `base64.RawURLEncoding.EncodeToString` on a slice of bytes
(natural numbers below 256).  Three bytes are packed into the 24-bit value
`val = a<<16 | b<<8 | c` and emitted as the four sextets `val>>18&0x3F`,
`val>>12&0x3F`, `val>>6&0x3F`, `val&0x3F`; since the bytes are below 256 the
bitwise or is a sum, a right shift by `k` is division by `2^k` and the mask is
`% 64`.  A remainder of two bytes emits three characters, a remainder of one
byte emits two, and, the encoding being raw, no padding is written. -/
def EncodeToString : List Nat → GoString
  | [] => []
  | [a] =>
    let val := a * 65536
    [encodeChar (val / 262144 % 64), encodeChar (val / 4096 % 64)]
  | [a, b] =>
    let val := a * 65536 + b * 256
    [encodeChar (val / 262144 % 64), encodeChar (val / 4096 % 64),
     encodeChar (val / 64 % 64)]
  | a :: b :: c :: rest =>
    let val := a * 65536 + b * 256 + c
    encodeChar (val / 262144 % 64) :: encodeChar (val / 4096 % 64) ::
      encodeChar (val / 64 % 64) :: encodeChar (val % 64) :: EncodeToString rest

/-- A slice of bytes: every element is below 256. -/
def isBytes (b : List Nat) : Prop := ∀ x ∈ b, x < 256

instance (b : List Nat) : Decidable (isBytes b) := by
  unfold isBytes; infer_instance

/-- The URL-safe characters: `A-Z`, `a-z`, `0-9`, `-`, `_`. -/
def isURLSafe (c : Char) : Prop :=
  (65 ≤ c.toNat ∧ c.toNat ≤ 90) ∨ (97 ≤ c.toNat ∧ c.toNat ≤ 122) ∨
    (48 ≤ c.toNat ∧ c.toNat ≤ 57) ∨ c = '-' ∨ c = '_'

instance (c : Char) : Decidable (isURLSafe c) := by
  unfold isURLSafe; infer_instance

/-! ## Records and the link resolver -/

/-- Identifiers (`uuid.UUID`), opaque. -/
abbrev UUID := Nat

/-- Modelled from the spec: the type `database.Video` is declared outside
`src/`.  The spec's data model gives the fields the handler touches (id, owner
id, nullable `VideoURL`); the remaining columns are carried opaquely. -/
structure Video where
  ID : UUID
  UserID : UUID
  VideoURL : Option GoString
  Rest : List GoString
deriving DecidableEq, Repr

/-- The three errors `dbVideoToSignedVideo` can return. -/
inductive SignError where
  | urlNil
  | invalidURL
  | presignFailed (cause : GoString)
deriving DecidableEq, Repr

/-- A recorded call `videoUtils.GeneratePresignedURL(client, bucket, key, expire)`. -/
structure PresignCall where
  bucket : GoString
  key : GoString
  expire : Nat
deriving DecidableEq, Repr

/-- The pair `(database.Video, error)` returned by `dbVideoToSignedVideo`,
together with the calls made to the signer. -/
structure Signed where
  video : Video
  err : Option SignError
  calls : List PresignCall
deriving DecidableEq, Repr

/-- The function `dbVideoToSignedVideo` (lines 22-40).  The signer
`videoUtils.GeneratePresignedURL` is a parameter. -/
def dbVideoToSignedVideo
    (GeneratePresignedURL : GoString → GoString → Nat → Except GoString GoString)
    (video : Video) : Signed :=
  match video.VideoURL with
  | none => ⟨video, some .urlNil, []⟩
  | some url =>
    let bucketKey := Split url ','
    if bucketKey.length ≠ 2 then ⟨video, some .invalidURL, []⟩
    else
      let bucket := bucketKey.getD 0 []
      let key := bucketKey.getD 1 []
      match GeneratePresignedURL bucket key 360000 with
      | .error e => ⟨video, some (.presignFailed e), [⟨bucket, key, 360000⟩]⟩
      | .ok presignedUrl =>
        ⟨{ video with VideoURL := some presignedUrl }, none, [⟨bucket, key, 360000⟩]⟩

/-! ## The upload handler -/

/-- Local file names. -/
abbrev Path := GoString

/-- A byte stream (`io.ReadCloser`): the number of bytes it holds and the byte
ceiling imposed on it, if any. -/
structure Reader where
  size : Nat
  limit : Option Nat
deriving DecidableEq, Repr

/-- The wrapper `http.MaxBytesReader(w, rc, n)`: a new reader over the same
stream that fails once more than `n` bytes are read.  The argument `rc` is not
modified. -/
def MaxBytesReader (rc : Reader) (n : Nat) : Reader :=
  { size := rc.size
    limit := some (match rc.limit with
      | none => n
      | some m => min m n) }

/-- Reading a stream to its end: the number of bytes delivered, or `none` when
the stream's byte ceiling is exceeded. -/
def Reader.readAll (rc : Reader) : Option Nat :=
  match rc.limit with
  | none => some rc.size
  | some n => if rc.size > n then none else some rc.size

/-- The part of a multipart body uploaded under one field name: the number of
bytes of the file and the declared `Content-Type` of the part. -/
structure FilePart where
  size : Nat
  contentType : GoString
deriving DecidableEq, Repr

/-- The fields of `*http.Request` the handler reads. -/
structure Request where
  /-- The value `r.PathValue("videoID")`. -/
  videoID : GoString
  /-- The header `r.Header`, reduced to what the auth package reads. -/
  Header : GoString
  /-- The stream `r.Body`. -/
  Body : Reader
  /-- The part named `video` that the body holds, if it holds one. -/
  video : Option FilePart
deriving DecidableEq, Repr

/-- The method `r.FormFile(name)` for the field `video`: the multipart body is
read, to its end, from `r.Body`; the call fails if that read fails or if the
body has no such part. -/
def Request.FormFile (r : Request) : Option FilePart :=
  match r.Body.readAll with
  | none => none
  | some _ => r.video

/-- The fields of `apiConfig` the handler reads. -/
structure apiConfig where
  jwtSecret : GoString
  s3Bucket : GoString
deriving DecidableEq, Repr

/-- The results of the calls the handler makes to its collaborators.  `none`
and `false` stand for a non-nil `error`. -/
structure Env where
  /-- The call `uuid.Parse`. -/
  Parse : GoString → Option UUID
  /-- The call `auth.GetBearerToken`. -/
  GetBearerToken : GoString → Option GoString
  /-- The call `auth.ValidateJWT(token, secret)`. -/
  ValidateJWT : GoString → GoString → Option UUID
  /-- The call `cfg.db.GetVideo`. -/
  GetVideo : UUID → Option Video
  /-- The call `mime.ParseMediaType`, its first result. -/
  ParseMediaType : GoString → Option GoString
  /-- The call `os.CreateTemp`: the name of the file created. -/
  CreateTemp : Option Path
  /-- The call `io.Copy(osFile, file)` on a source of the given size: the number
  of bytes written, and whether the returned error is nil. -/
  Copy : Nat → Nat × Bool
  /-- The call `osFile.Seek(0, io.SeekStart)`: whether the error is nil. -/
  Seek : Bool
  /-- The call `video.ProcessForFastStart`: the path of the output file. -/
  ProcessForFastStart : Path → Option Path
  /-- The call `os.Open`: whether the error is nil. -/
  Open : Path → Bool
  /-- The call `videoUtils.GetAspectRatio`. -/
  GetAspectRatio : Path → Option GoString
  /-- The call `rand.Read` on a slice of the given length: the bytes read. -/
  Read : Nat → Option (List Nat)
  /-- The call `cfg.s3Client.PutObject` for a bucket and key: whether the error
  is nil. -/
  PutObject : GoString → GoString → Bool
  /-- The call `cfg.db.UpdateVideo`: whether the error is nil. -/
  UpdateVideo : Video → Bool

/-- The calls of one request, as recorded in the trace.  The calls that change
the set of local files carry their result. -/
inductive Event where
  | bodyClose
  | readerClose (r : Reader)
  | Parse (s : GoString)
  | GetBearerToken (h : GoString)
  | ValidateJWT (token secret : GoString)
  | GetVideo (id : UUID)
  | FormFile (body : Reader)
  | fileClose
  | ParseMediaType (s : GoString)
  | CreateTemp (created : Option Path)
  | Remove (name : Path)
  | osFileClose
  | Copy (size written : Nat) (ok : Bool)
  | Seek
  | ProcessForFastStart (name : Path) (output : Option Path)
  | Open (name : Path)
  | processedFileClose
  | GetAspectRatio (name : Path)
  | Read (n : Nat)
  | PutObject (bucket key : GoString) (body : Path) (contentType : GoString)
  | UpdateVideo (v : Video)
  | respondWithError (code : Nat) (msg : String)
  | respondWithJSON (code : Nat) (payload : Video)
deriving DecidableEq, Repr

/-- The constant `uploadLimt := 1 << 30` (line 43). -/
def uploadLimt : Nat := 1 <<< 30

/-- Line 144: `fileName := base64.RawURLEncoding.EncodeToString(bytes)`. -/
def fileName (bytes : List Nat) : GoString := EncodeToString bytes

/-- Line 145: `key := fmt.Sprintf("%s/%s.mp4", aspectRatio, fileName)`. -/
def key (aspectRatio : GoString) (bytes : List Nat) : GoString :=
  aspectRatio ++ "/".toList ++ fileName bytes ++ ".mp4".toList

/-- Line 161: `newUrl := fmt.Sprintf("%s,%s", cfg.s3Bucket, key)`. -/
def newUrl (s3Bucket : GoString) (objectKey : GoString) : GoString :=
  s3Bucket ++ ",".toList ++ objectKey

/-- Lines 128-170: the scope in which `processedFile` is open, from the
aspect-ratio probe to the response. -/
def publishScope (cfg : apiConfig) (env : Env) (videoData : Video)
    (mediaType : GoString) (processedFilePath : Path) : List Event :=
  Event.GetAspectRatio processedFilePath ::
  match env.GetAspectRatio processedFilePath with
  | none => [Event.respondWithError 500 "Couldn't get aspect ratio"]
  | some aspectRatio =>
    Event.Read 32 ::
    match env.Read 32 with
    | none => [Event.respondWithError 500 "Failed to save thumbnail"]
    | some bytes =>
      Event.PutObject cfg.s3Bucket (key aspectRatio bytes) processedFilePath mediaType ::
      match env.PutObject cfg.s3Bucket (key aspectRatio bytes) with
      | false => [Event.respondWithError 500 "Couldn't upload video"]
      | true =>
        Event.UpdateVideo
          { videoData with VideoURL := some (newUrl cfg.s3Bucket (key aspectRatio bytes)) } ::
        match env.UpdateVideo
          { videoData with VideoURL := some (newUrl cfg.s3Bucket (key aspectRatio bytes)) } with
        | false => [Event.respondWithError 500 "Couldn't update video"]
        | true =>
          [Event.respondWithJSON 200
            { videoData with VideoURL := some (newUrl cfg.s3Bucket (key aspectRatio bytes)) }]

/-- Lines 107-126: the scope in which the staged temporary file exists, from
the copy to the deferred `processedFile.Close()`.  Both results of `io.Copy`
are discarded (line 107). -/
def stagedScope (cfg : apiConfig) (env : Env) (videoData : Video)
    (mediaType : GoString) (file : FilePart) (osFileName : Path) : List Event :=
  Event.Copy file.size (env.Copy file.size).1 (env.Copy file.size).2 ::
  Event.Seek ::
  match env.Seek with
  | false => [Event.respondWithError 500 "Couldn't seek file"]
  | true =>
    Event.ProcessForFastStart osFileName (env.ProcessForFastStart osFileName) ::
    match env.ProcessForFastStart osFileName with
    | none => [Event.respondWithError 500 "Couldn't process video"]
    | some processedFilePath =>
      Event.Open processedFilePath ::
      match env.Open processedFilePath with
      | false => [Event.respondWithError 500 "Couldn't read processed file"]
      | true =>
        publishScope cfg env videoData mediaType processedFilePath ++
          [Event.processedFileClose]

/-- Lines 87-105: the scope in which the uploaded `file` is open, from the
media-type check to the deferred `osFile.Close()` and `os.Remove`. -/
def fileScope (cfg : apiConfig) (env : Env) (videoData : Video)
    (file : FilePart) : List Event :=
  Event.ParseMediaType file.contentType ::
  match env.ParseMediaType file.contentType with
  | none => [Event.respondWithError 400 "Invalid media type"]
  | some mediaType =>
    if mediaType ≠ "video/mp4".toList then
      [Event.respondWithError 400 "Invalid media type"]
    else
      Event.CreateTemp env.CreateTemp ::
      match env.CreateTemp with
      | none => [Event.respondWithError 500 "Couldn't save file"]
      | some osFileName =>
        stagedScope cfg env videoData mediaType file osFileName ++
          [Event.osFileClose, Event.Remove osFileName]

/-- Lines 48-85: the body of the handler, from the id parse to the deferred
`file.Close()`. -/
def requestScope (cfg : apiConfig) (env : Env) (r : Request) : List Event :=
  Event.Parse r.videoID ::
  match env.Parse r.videoID with
  | none => [Event.respondWithError 400 "Invalid ID"]
  | some videoID =>
    Event.GetBearerToken r.Header ::
    match env.GetBearerToken r.Header with
    | none => [Event.respondWithError 401 "Couldn't find JWT"]
    | some token =>
      Event.ValidateJWT token cfg.jwtSecret ::
      match env.ValidateJWT token cfg.jwtSecret with
      | none => [Event.respondWithError 401 "Couldn't validate JWT"]
      | some userID =>
        Event.GetVideo videoID ::
        match env.GetVideo videoID with
        | none => [Event.respondWithError 500 "Couldn't get video"]
        | some videoData =>
          if videoData.UserID ≠ userID then
            [Event.respondWithError 401 "Not authorized"]
          else
            Event.FormFile r.Body ::
            match r.FormFile with
            | none => [Event.respondWithError 400 "Couldn't get video"]
            | some file => fileScope cfg env videoData file ++ [Event.fileClose]

/-- The function `handlerUploadVideo` (lines 42-171): the trace of the calls
it makes, in program order.  The byte-ceiling `reader` of line 44 is bound to a
local variable; the handler's only later use of it is the deferred
`reader.Close()` (line 46). -/
def handlerUploadVideo (cfg : apiConfig) (env : Env) (r : Request) : List Event :=
  let reader := MaxBytesReader r.Body uploadLimt
  requestScope cfg env r ++ [Event.readerClose reader, Event.bodyClose]

/-! ## Observations on a trace -/

/-- Modelled from the spec: `video.ProcessForFastStart` is declared outside
`src/`.  The transformer produces a new local file and leaves its input
untouched, and a missing output is an error: when the call succeeds, the file
at the path it returns exists (the handler opens it next, line 120). -/
def fastStartEffect (output : Option Path) (fs : List Path) : List Path :=
  match output with
  | some name => name :: fs
  | none => fs

/-- The effect of one call on the set of local files: `os.CreateTemp` creates
the file it names, `os.Remove` deletes the named file, `ProcessForFastStart`
has the effect `fastStartEffect`, and no other call creates or deletes a local
file. -/
def Event.apply (e : Event) (fs : List Path) : List Path :=
  match e with
  | .CreateTemp (some name) => name :: fs
  | .ProcessForFastStart _ output => fastStartEffect output fs
  | .Remove name => fs.filter (· ≠ name)
  | _ => fs

/-- The set of local files after a trace, started on the set `fs`. -/
def localFiles (trace : List Event) (fs : List Path) : List Path :=
  trace.foldl (fun fs e => e.apply fs) fs

/-- The responses written, in order: status code and, for a JSON response,
the payload. -/
def responses : List Event → List (Nat × Option Video)
  | [] => []
  | .respondWithError code _ :: t => (code, none) :: responses t
  | .respondWithJSON code v :: t => (code, some v) :: responses t
  | _ :: t => responses t

/-- Whether a call is a call of `cfg.db.UpdateVideo`. -/
def Event.isUpdateVideo : Event → Bool
  | .UpdateVideo _ => true
  | _ => false

/-- The steps of the handler, in program order. -/
inductive Step where
  | parseID
  | bearerToken
  | validateJWT
  | getVideo
  | ownerCheck
  | formFile
  | mediaType
  | createTemp
  | copySeek
  | fastStart
  | openProcessed
  | aspectRatio
  | randomKey
  | putObject
  | updateVideo
deriving DecidableEq, Repr

/-- The position of a step in the sequence, from 1. -/
def Step.index : Step → Nat
  | .parseID => 1
  | .bearerToken => 2
  | .validateJWT => 3
  | .getVideo => 4
  | .ownerCheck => 5
  | .formFile => 6
  | .mediaType => 7
  | .createTemp => 8
  | .copySeek => 9
  | .fastStart => 10
  | .openProcessed => 11
  | .aspectRatio => 12
  | .randomKey => 13
  | .putObject => 14
  | .updateVideo => 15

/-- The step a call belongs to, by position; a deferred release belongs to the
step that acquired the resource.  The closing of the request body and of the
byte-ceiling reader, registered before the first step, and the responses have
position 0. -/
def Event.step : Event → Nat
  | .bodyClose => 0
  | .readerClose _ => 0
  | .Parse _ => 1
  | .GetBearerToken _ => 2
  | .ValidateJWT _ _ => 3
  | .GetVideo _ => 4
  | .FormFile _ => 6
  | .fileClose => 6
  | .ParseMediaType _ => 7
  | .CreateTemp _ => 8
  | .Remove _ => 8
  | .osFileClose => 8
  | .Copy _ _ _ => 9
  | .Seek => 9
  | .ProcessForFastStart _ _ => 10
  | .Open _ => 11
  | .processedFileClose => 11
  | .GetAspectRatio _ => 12
  | .Read _ => 13
  | .PutObject _ _ _ _ => 14
  | .UpdateVideo _ => 15
  | .respondWithError _ _ => 0
  | .respondWithJSON _ _ => 0

/-- The first step, in program order, whose call returns an error or whose
check rejects; `none` when every step succeeds.  The step `copySeek` fails when
`osFile.Seek` returns an error. -/
def firstFailure (cfg : apiConfig) (env : Env) (r : Request) : Option Step :=
  match env.Parse r.videoID with
  | none => some .parseID
  | some videoID =>
  match env.GetBearerToken r.Header with
  | none => some .bearerToken
  | some token =>
  match env.ValidateJWT token cfg.jwtSecret with
  | none => some .validateJWT
  | some userID =>
  match env.GetVideo videoID with
  | none => some .getVideo
  | some videoData =>
  if videoData.UserID ≠ userID then some .ownerCheck else
  match r.FormFile with
  | none => some .formFile
  | some file =>
  match env.ParseMediaType file.contentType with
  | none => some .mediaType
  | some mediaType =>
  if mediaType ≠ "video/mp4".toList then some .mediaType else
  match env.CreateTemp with
  | none => some .createTemp
  | some osFileName =>
  match env.Seek with
  | false => some .copySeek
  | true =>
  match env.ProcessForFastStart osFileName with
  | none => some .fastStart
  | some processedFilePath =>
  match env.Open processedFilePath with
  | false => some .openProcessed
  | true =>
  match env.GetAspectRatio processedFilePath with
  | none => some .aspectRatio
  | some aspectRatio =>
  match env.Read 32 with
  | none => some .randomKey
  | some bytes =>
  match env.PutObject cfg.s3Bucket (key aspectRatio bytes) with
  | false => some .putObject
  | true =>
  match env.UpdateVideo
      { videoData with VideoURL := some (newUrl cfg.s3Bucket (key aspectRatio bytes)) } with
  | false => some .updateVideo
  | true => none

/-- The status code with which the handler answers a failure of each step. -/
def Step.status : Step → Nat
  | .parseID => 400
  | .bearerToken => 401
  | .validateJWT => 401
  | .getVideo => 500
  | .ownerCheck => 401
  | .formFile => 400
  | .mediaType => 400
  | _ => 500

/-! ## Auxiliary definitions for the proofs -/

/-- The inverse table of `encodeChar`, used only to prove injectivity. -/
def decodeChar (c : Char) : Nat := encodeURL.indexOf c

/-- The decoder for the raw URL encoding, used only to prove injectivity. -/
def DecodeString : GoString → List Nat
  | c0 :: c1 :: c2 :: c3 :: rest =>
    let val := decodeChar c0 * 262144 + decodeChar c1 * 4096 + decodeChar c2 * 64 +
      decodeChar c3
    (val / 65536 % 256) :: (val / 256 % 256) :: (val % 256) :: DecodeString rest
  | [c0, c1, c2] =>
    let val := decodeChar c0 * 262144 + decodeChar c1 * 4096 + decodeChar c2 * 64
    [val / 65536 % 256, val / 256 % 256]
  | [c0, c1] =>
    let val := decodeChar c0 * 262144 + decodeChar c1 * 4096
    [val / 65536 % 256]
  | _ => []

/-- The calls from the upload of the object to the response, once the random
key has been drawn (lines 147-170). -/
def publishTail (cfg : apiConfig) (env : Env) (videoData : Video)
    (aspectRatio : GoString) (bytes : List Nat) : List Event :=
  match env.PutObject cfg.s3Bucket (key aspectRatio bytes) with
  | false => [Event.respondWithError 500 "Couldn't upload video"]
  | true =>
    Event.UpdateVideo
      { videoData with VideoURL := some (newUrl cfg.s3Bucket (key aspectRatio bytes)) } ::
    match env.UpdateVideo
      { videoData with VideoURL := some (newUrl cfg.s3Bucket (key aspectRatio bytes)) } with
    | false => [Event.respondWithError 500 "Couldn't update video"]
    | true =>
      [Event.respondWithJSON 200
        { videoData with VideoURL := some (newUrl cfg.s3Bucket (key aspectRatio bytes)) }]

/-- The failure, if any, of the last two steps, once the random key has been
drawn. -/
def publishFailure (cfg : apiConfig) (env : Env) (videoData : Video)
    (aspectRatio : GoString) (bytes : List Nat) : Option Step :=
  match env.PutObject cfg.s3Bucket (key aspectRatio bytes) with
  | false => some .putObject
  | true =>
    match env.UpdateVideo
      { videoData with VideoURL := some (newUrl cfg.s3Bucket (key aspectRatio bytes)) } with
    | false => some .updateVideo
    | true => none

/-! ## Sample inputs -/

/-- A configuration. -/
def sampleCfg : apiConfig := ⟨"secret".toList, "tubely-bucket".toList⟩

/-- An environment in which every call succeeds: the copy writes the whole
upload, the transform writes its output next to its input, and the 32 random
bytes are 0, 1, ..., 31. -/
def sampleEnv : Env where
  Parse := fun _ => some 7
  GetBearerToken := fun _ => some "token".toList
  ValidateJWT := fun _ _ => some 1
  GetVideo := fun id => some ⟨id, 1, none, []⟩
  ParseMediaType := fun s => some s
  CreateTemp := some "/tmp/1-tubely-video-mp4".toList
  Copy := fun n => (n, true)
  Seek := true
  ProcessForFastStart := fun name => some (name ++ ".processing".toList)
  Open := fun _ => true
  GetAspectRatio := fun _ => some "landscape".toList
  Read := fun n => some (List.range n)
  PutObject := fun _ _ => true
  UpdateVideo := fun _ => true

/-- The environment `sampleEnv`, except that `rand.Read` draws 32 zero bytes. -/
def zeroBytesEnv : Env := { sampleEnv with Read := fun n => some (List.replicate n 0) }

/-- The environment `sampleEnv`, except that `io.Copy` suffers a write fault:
it writes no byte and returns an error. -/
def copyFaultEnv : Env := { sampleEnv with Copy := fun _ => (0, false) }

/-- A request by the owner of video 7 with a 1024-byte MP4 file in a 2048-byte
body. -/
def sampleRequest : Request :=
  ⟨"7".toList, "Bearer token".toList, ⟨2048, none⟩, some ⟨1024, "video/mp4".toList⟩⟩

/-- A request like `sampleRequest` whose body holds one byte more than 1 GiB. -/
def oversizedRequest : Request :=
  ⟨"7".toList, "Bearer token".toList, ⟨1073741825, none⟩,
    some ⟨1073741000, "video/mp4".toList⟩⟩

/-- The key drawn under `sampleEnv`. -/
def sampleKey : GoString :=
  "landscape/AAECAwQFBgcICQoLDA0ODxAREhMUFRYXGBkaGxwdHh8.mp4".toList

/-- The record stored by the handler for `sampleRequest` under `sampleEnv`. -/
def sampleStored : Video :=
  ⟨7, 1, some ("tubely-bucket,".toList ++ sampleKey), []⟩

/-- A signer that always succeeds. -/
def sampleSigner : GoString → GoString → Nat → Except GoString GoString :=
  fun b k _ => .ok ("https://".toList ++ b ++ "/".toList ++ k)

/-! ## Facts about `Split` -/

theorem Split_length (s : GoString) (sep : Char) :
    (Split s sep).length = s.count sep + 1 := by
  induction s with
  | nil => simp [Split]
  | cons c cs ih =>
    unfold Split
    by_cases h : c = sep
    · subst h
      simp [ih]
    · have hc : (c == sep) = false := by simpa using h
      rw [if_neg h, List.count_cons, hc]
      cases hs : Split cs sep with
      | nil => rw [hs] at ih; simp at ih
      | cons a t => rw [hs] at ih; simpa using ih

theorem Split_of_not_mem (s : GoString) (sep : Char) (h : sep ∉ s) :
    Split s sep = [s] := by
  induction s with
  | nil => simp [Split]
  | cons c cs ih =>
    have hc : c ≠ sep := fun e => h (by simp [e])
    have hcs : sep ∉ cs := fun e => h (by simp [e])
    unfold Split
    rw [if_neg hc, ih hcs]

theorem Split_append (a b : GoString) (sep : Char) (h : sep ∉ a) :
    Split (a ++ sep :: b) sep = a :: Split b sep := by
  induction a with
  | nil => simp [Split]
  | cons c cs ih =>
    have hc : c ≠ sep := fun e => h (by simp [e])
    have hcs : sep ∉ cs := fun e => h (by simp [e])
    rw [List.cons_append, Split, if_neg hc, ih hcs]

/-! ## Facts about the encoding -/

theorem encodeURL_length : encodeURL.length = 64 := by decide

theorem encodeChar_mem {i : Nat} (h : i < 64) : encodeChar i ∈ encodeURL := by
  unfold encodeChar
  rw [List.getD_eq_getElem _ _ (by rw [encodeURL_length]; exact h)]
  exact List.getElem_mem _

theorem EncodeToString_mem (b : List Nat) :
    ∀ c ∈ EncodeToString b, c ∈ encodeURL := by
  induction b using EncodeToString.induct with
  | case1 => simp [EncodeToString]
  | case2 a =>
    intro c hc
    simp only [EncodeToString, List.mem_cons, List.mem_singleton] at hc
    rcases hc with h | h | h <;> first
      | (subst h; exact encodeChar_mem (Nat.mod_lt _ (by decide)))
      | simp at h
  | case3 a b =>
    intro c hc
    simp only [EncodeToString, List.mem_cons, List.mem_singleton] at hc
    rcases hc with h | h | h | h <;> first
      | (subst h; exact encodeChar_mem (Nat.mod_lt _ (by decide)))
      | simp at h
  | case4 a b c rest ih =>
    intro x hx
    simp only [EncodeToString, List.mem_cons] at hx
    rcases hx with h | h | h | h | h
    · subst h; exact encodeChar_mem (Nat.mod_lt _ (by decide))
    · subst h; exact encodeChar_mem (Nat.mod_lt _ (by decide))
    · subst h; exact encodeChar_mem (Nat.mod_lt _ (by decide))
    · subst h; exact encodeChar_mem (Nat.mod_lt _ (by decide))
    · exact ih x h

theorem EncodeToString_length (b : List Nat) :
    (EncodeToString b).length = (b.length * 8 + 5) / 6 := by
  induction b using EncodeToString.induct with
  | case1 => simp [EncodeToString]
  | case2 a => simp [EncodeToString]
  | case3 a b => simp [EncodeToString]
  | case4 a b c rest ih =>
    simp only [EncodeToString, List.length_cons, ih]
    omega

theorem encodeURL_safe : ∀ c ∈ encodeURL, isURLSafe c := by decide

theorem comma_not_mem_encodeURL : ',' ∉ encodeURL := by decide

theorem decodeChar_encodeChar_fin : ∀ i : Fin 64, decodeChar (encodeChar i.1) = i.1 := by
  decide

theorem decodeChar_encodeChar {i : Nat} (h : i < 64) : decodeChar (encodeChar i) = i :=
  decodeChar_encodeChar_fin ⟨i, h⟩

theorem DecodeString_EncodeToString (b : List Nat) (hb : isBytes b) :
    DecodeString (EncodeToString b) = b := by
  induction b using EncodeToString.induct with
  | case1 => simp [EncodeToString, DecodeString]
  | case2 a =>
    have ha : a < 256 := hb a (by simp)
    simp only [EncodeToString, DecodeString]
    rw [decodeChar_encodeChar (Nat.mod_lt _ (by decide)),
      decodeChar_encodeChar (Nat.mod_lt _ (by decide))]
    congr 1
    omega
  | case3 a b =>
    have ha : a < 256 := hb a (by simp)
    have hb2 : b < 256 := hb b (by simp)
    simp only [EncodeToString, DecodeString]
    rw [decodeChar_encodeChar (Nat.mod_lt _ (by decide)),
      decodeChar_encodeChar (Nat.mod_lt _ (by decide)),
      decodeChar_encodeChar (Nat.mod_lt _ (by decide))]
    congr 1
    · omega
    · congr 1
      omega
  | case4 a b c rest ih =>
    have ha : a < 256 := hb a (by simp)
    have hb2 : b < 256 := hb b (by simp)
    have hc : c < 256 := hb c (by simp)
    have hr : isBytes rest := fun x hx => hb x (by simp [hx])
    simp only [EncodeToString, DecodeString]
    rw [decodeChar_encodeChar (Nat.mod_lt _ (by decide)),
      decodeChar_encodeChar (Nat.mod_lt _ (by decide)),
      decodeChar_encodeChar (Nat.mod_lt _ (by decide)),
      decodeChar_encodeChar (Nat.mod_lt _ (by decide)), ih hr]
    congr 1
    · omega
    · congr 1
      · omega
      · congr 1
        omega

theorem EncodeToString_injective (b1 b2 : List Nat) (h1 : isBytes b1) (h2 : isBytes b2)
    (h : EncodeToString b1 = EncodeToString b2) : b1 = b2 := by
  rw [← DecodeString_EncodeToString b1 h1, ← DecodeString_EncodeToString b2 h2, h]

/-! ## The shape of the handler's trace -/

theorem responses_append (a b : List Event) :
    responses (a ++ b) = responses a ++ responses b := by
  induction a with
  | nil => rfl
  | cons e t ih => cases e <;> simp [responses, ih]

/-- When some step fails, every call made belongs to that step or to an earlier
one, and the only response written is an error response with the status code of
the failing step. -/
theorem handler_failure (cfg : apiConfig) (env : Env) (r : Request) (k : Step)
    (hk : firstFailure cfg env r = some k) :
    (∀ e ∈ handlerUploadVideo cfg env r, e.step ≤ k.index) ∧
      responses (handlerUploadVideo cfg env r) = [(k.status, none)] := by
  unfold firstFailure at hk
  unfold handlerUploadVideo requestScope
  rcases h1 : env.Parse r.videoID with _ | videoID
  · simp only [h1] at hk ⊢
    cases hk
    simp [responses, Event.step, Step.index, Step.status]
  simp only [h1] at hk ⊢
  rcases h2 : env.GetBearerToken r.Header with _ | token
  · simp only [h2] at hk ⊢
    cases hk
    simp [responses, Event.step, Step.index, Step.status]
  simp only [h2] at hk ⊢
  rcases h3 : env.ValidateJWT token cfg.jwtSecret with _ | userID
  · simp only [h3] at hk ⊢
    cases hk
    simp [responses, Event.step, Step.index, Step.status]
  simp only [h3] at hk ⊢
  rcases h4 : env.GetVideo videoID with _ | videoData
  · simp only [h4] at hk ⊢
    cases hk
    simp [responses, Event.step, Step.index, Step.status]
  simp only [h4] at hk ⊢
  by_cases h5 : videoData.UserID ≠ userID
  · simp only [if_pos h5] at hk ⊢
    cases hk
    simp [responses, Event.step, Step.index, Step.status]
  simp only [if_neg h5] at hk ⊢
  rcases h6 : r.FormFile with _ | file
  · simp only [h6] at hk ⊢
    cases hk
    simp [responses, Event.step, Step.index, Step.status]
  simp only [h6] at hk ⊢
  unfold fileScope
  rcases h7 : env.ParseMediaType file.contentType with _ | mediaType
  · simp only [h7] at hk ⊢
    cases hk
    simp [responses, Event.step, Step.index, Step.status]
  simp only [h7] at hk ⊢
  by_cases h7b : mediaType ≠ "video/mp4".toList
  · simp only [if_pos h7b] at hk ⊢
    cases hk
    simp [responses, Event.step, Step.index, Step.status]
  simp only [if_neg h7b] at hk ⊢
  rcases h8 : env.CreateTemp with _ | osFileName
  · simp only [h8] at hk ⊢
    cases hk
    simp [responses, Event.step, Step.index, Step.status]
  simp only [h8] at hk ⊢
  unfold stagedScope
  rcases h9 : env.Seek with _ | _
  · simp only [h9] at hk ⊢
    cases hk
    simp [responses, Event.step, Step.index, Step.status]
  simp only [h9] at hk ⊢
  rcases h10 : env.ProcessForFastStart osFileName with _ | processedFilePath
  · simp only [h10] at hk ⊢
    cases hk
    simp [responses, Event.step, Step.index, Step.status]
  simp only [h10] at hk ⊢
  rcases h11 : env.Open processedFilePath with _ | _
  · simp only [h11] at hk ⊢
    cases hk
    simp [responses, Event.step, Step.index, Step.status]
  simp only [h11] at hk ⊢
  unfold publishScope
  rcases h12 : env.GetAspectRatio processedFilePath with _ | aspectRatio
  · simp only [h12] at hk ⊢
    cases hk
    simp [responses, Event.step, Step.index, Step.status]
  simp only [h12] at hk ⊢
  rcases h13 : env.Read 32 with _ | bytes
  · simp only [h13] at hk ⊢
    cases hk
    simp [responses, Event.step, Step.index, Step.status]
  simp only [h13] at hk ⊢
  rcases h14 : env.PutObject cfg.s3Bucket (key aspectRatio bytes) with _ | _
  · simp only [h14] at hk ⊢
    cases hk
    simp [responses, Event.step, Step.index, Step.status]
  simp only [h14] at hk ⊢
  rcases h15 : env.UpdateVideo
      { videoData with VideoURL := some (newUrl cfg.s3Bucket (key aspectRatio bytes)) }
    with _ | _
  · simp only [h15] at hk ⊢
    cases hk
    simp [responses, Event.step, Step.index, Step.status]
  simp only [h15] at hk ⊢
  cases hk

/-- When no step before the upload of the object fails, the trace is the full
sequence of calls up to `PutObject`, then the calls of `publishTail`, then the
deferred releases in last-in-first-out order. -/
theorem handler_published (cfg : apiConfig) (env : Env) (r : Request)
    (h : ∀ k, firstFailure cfg env r = some k → 14 ≤ k.index) :
    ∃ videoID token userID videoData file osFileName processedFilePath aspectRatio bytes,
      env.Parse r.videoID = some videoID ∧
      env.GetBearerToken r.Header = some token ∧
      env.ValidateJWT token cfg.jwtSecret = some userID ∧
      env.GetVideo videoID = some videoData ∧
      videoData.UserID = userID ∧
      r.FormFile = some file ∧
      env.ParseMediaType file.contentType = some "video/mp4".toList ∧
      env.CreateTemp = some osFileName ∧
      env.Seek = true ∧
      env.ProcessForFastStart osFileName = some processedFilePath ∧
      env.Open processedFilePath = true ∧
      env.GetAspectRatio processedFilePath = some aspectRatio ∧
      env.Read 32 = some bytes ∧
      firstFailure cfg env r = publishFailure cfg env videoData aspectRatio bytes ∧
      handlerUploadVideo cfg env r =
        [Event.Parse r.videoID, Event.GetBearerToken r.Header,
          Event.ValidateJWT token cfg.jwtSecret, Event.GetVideo videoID,
          Event.FormFile r.Body, Event.ParseMediaType file.contentType,
          Event.CreateTemp (some osFileName),
          Event.Copy file.size (env.Copy file.size).1 (env.Copy file.size).2,
          Event.Seek, Event.ProcessForFastStart osFileName (some processedFilePath),
          Event.Open processedFilePath, Event.GetAspectRatio processedFilePath,
          Event.Read 32,
          Event.PutObject cfg.s3Bucket (key aspectRatio bytes) processedFilePath
            "video/mp4".toList] ++
        publishTail cfg env videoData aspectRatio bytes ++
        [Event.processedFileClose, Event.osFileClose, Event.Remove osFileName,
          Event.fileClose, Event.readerClose (MaxBytesReader r.Body uploadLimt),
          Event.bodyClose] := by
  unfold firstFailure at h
  rcases Option.eq_none_or_eq_some (env.Parse r.videoID) with h1 | ⟨videoID, h1⟩
  · simp only [h1] at h
    exact absurd (h _ rfl) (by decide)
  simp only [h1] at h
  rcases Option.eq_none_or_eq_some (env.GetBearerToken r.Header) with h2 | ⟨token, h2⟩
  · simp only [h2] at h
    exact absurd (h _ rfl) (by decide)
  simp only [h2] at h
  rcases Option.eq_none_or_eq_some (env.ValidateJWT token cfg.jwtSecret) with h3 | ⟨userID, h3⟩
  · simp only [h3] at h
    exact absurd (h _ rfl) (by decide)
  simp only [h3] at h
  rcases Option.eq_none_or_eq_some (env.GetVideo videoID) with h4 | ⟨videoData, h4⟩
  · simp only [h4] at h
    exact absurd (h _ rfl) (by decide)
  simp only [h4] at h
  by_cases h5 : videoData.UserID ≠ userID
  · simp only [if_pos h5] at h
    exact absurd (h _ rfl) (by decide)
  simp only [if_neg h5] at h
  rcases Option.eq_none_or_eq_some (r.FormFile) with h6 | ⟨file, h6⟩
  · simp only [h6] at h
    exact absurd (h _ rfl) (by decide)
  simp only [h6] at h
  rcases Option.eq_none_or_eq_some (env.ParseMediaType file.contentType) with h7 | ⟨mediaType, h7⟩
  · simp only [h7] at h
    exact absurd (h _ rfl) (by decide)
  simp only [h7] at h
  by_cases h7b : mediaType ≠ "video/mp4".toList
  · simp only [if_pos h7b] at h
    exact absurd (h _ rfl) (by decide)
  simp only [if_neg h7b] at h
  rcases Option.eq_none_or_eq_some (env.CreateTemp) with h8 | ⟨osFileName, h8⟩
  · simp only [h8] at h
    exact absurd (h _ rfl) (by decide)
  simp only [h8] at h
  rcases Bool.eq_false_or_eq_true (env.Seek) with h9 | h9
  swap
  · simp only [h9] at h
    exact absurd (h _ rfl) (by decide)
  simp only [h9] at h
  rcases Option.eq_none_or_eq_some (env.ProcessForFastStart osFileName) with h10 | ⟨processedFilePath, h10⟩
  · simp only [h10] at h
    exact absurd (h _ rfl) (by decide)
  simp only [h10] at h
  rcases Bool.eq_false_or_eq_true (env.Open processedFilePath) with h11 | h11
  swap
  · simp only [h11] at h
    exact absurd (h _ rfl) (by decide)
  simp only [h11] at h
  rcases Option.eq_none_or_eq_some (env.GetAspectRatio processedFilePath) with h12 | ⟨aspectRatio, h12⟩
  · simp only [h12] at h
    exact absurd (h _ rfl) (by decide)
  simp only [h12] at h
  rcases Option.eq_none_or_eq_some (env.Read 32) with h13 | ⟨bytes, h13⟩
  · simp only [h13] at h
    exact absurd (h _ rfl) (by decide)
  simp only [h13] at h
  have h5e : videoData.UserID = userID := not_not.mp h5
  have h7e : mediaType = "video/mp4".toList := not_not.mp h7b
  subst h7e
  refine ⟨videoID, token, userID, videoData, file, osFileName, processedFilePath,
    aspectRatio, bytes, h1, h2, h3, h4, h5e, h6, h7, h8, h9, h10, h11, h12, h13, ?_, ?_⟩
  · simp only [firstFailure, publishFailure, h1, h2, h3, h4, if_neg h5, h6, h7, if_neg h7b,
      h8, h9, h10, h11, h12, h13]
  · simp only [handlerUploadVideo, requestScope, fileScope, stagedScope, publishScope,
      publishTail, h1, h2, h3, h4, if_neg h5, h6, h7, if_neg h7b, h8, h9, h10, h11, h12, h13,
      List.cons_append, List.nil_append, List.append_assoc]

/-! ## Locators and the resolver -/

theorem comma_not_mem_key (aspectRatio : GoString) (bytes : List Nat)
    (hc : ',' ∉ aspectRatio) : ',' ∉ key aspectRatio bytes := by
  intro h
  simp only [key, fileName, List.mem_append] at h
  rcases h with ((h | h) | h) | h
  · exact hc h
  · revert h; decide
  · exact comma_not_mem_encodeURL (EncodeToString_mem bytes _ h)
  · revert h; decide

theorem Split_newUrl (bucket aspectRatio : GoString) (bytes : List Nat)
    (hb : ',' ∉ bucket) (hc : ',' ∉ aspectRatio) :
    Split (newUrl bucket (key aspectRatio bytes)) ',' = [bucket, key aspectRatio bytes] := by
  have e : newUrl bucket (key aspectRatio bytes) = bucket ++ ',' :: key aspectRatio bytes := by
    simp [newUrl]
  rw [e, Split_append _ _ _ hb, Split_of_not_mem _ _ (comma_not_mem_key _ _ hc)]

theorem dbVideoToSignedVideo_of_split
    (sign : GoString → GoString → Nat → Except GoString GoString) (v : Video)
    (url b k : GoString) (hv : v.VideoURL = some url) (hs : Split url ',' = [b, k]) :
    (dbVideoToSignedVideo sign v).calls = [⟨b, k, 360000⟩] ∧
    (dbVideoToSignedVideo sign v).err ≠ some SignError.invalidURL ∧
    (∀ u, sign b k 360000 = .ok u →
      dbVideoToSignedVideo sign v = ⟨{ v with VideoURL := some u }, none, [⟨b, k, 360000⟩]⟩) ∧
    (∀ e, sign b k 360000 = .error e →
      dbVideoToSignedVideo sign v = ⟨v, some (.presignFailed e), [⟨b, k, 360000⟩]⟩) := by
  unfold dbVideoToSignedVideo
  simp only [hv, hs]
  cases hsign : sign b k 360000 <;> simp [hsign]

/-! ## Calls of the handler -/

theorem putObject_not_mem_publishTail (cfg : apiConfig) (env : Env) (videoData : Video)
    (aspectRatio : GoString) (bytes : List Nat) (b k : GoString) (p : Path) (t : GoString) :
    Event.PutObject b k p t ∉ publishTail cfg env videoData aspectRatio bytes := by
  unfold publishTail
  cases env.PutObject cfg.s3Bucket (key aspectRatio bytes) with
  | false => simp
  | true =>
    cases env.UpdateVideo
      { videoData with VideoURL := some (newUrl cfg.s3Bucket (key aspectRatio bytes)) } <;> simp

theorem updateVideo_mem_publishTail (cfg : apiConfig) (env : Env) (videoData : Video)
    (aspectRatio : GoString) (bytes : List Nat) (v : Video)
    (h : Event.UpdateVideo v ∈ publishTail cfg env videoData aspectRatio bytes) :
    env.PutObject cfg.s3Bucket (key aspectRatio bytes) = true ∧
      v = { videoData with VideoURL := some (newUrl cfg.s3Bucket (key aspectRatio bytes)) } := by
  unfold publishTail at h
  cases hp : env.PutObject cfg.s3Bucket (key aspectRatio bytes) with
  | false => simp [hp] at h
  | true =>
    simp only [hp] at h
    cases hu : env.UpdateVideo
      { videoData with VideoURL := some (newUrl cfg.s3Bucket (key aspectRatio bytes)) } <;>
      simp [hu] at h <;> exact ⟨rfl, h⟩

/-- Every `PutObject` call of the handler names the configured bucket, the key
derived from the probed classification and the random bytes, and the media
type `video/mp4`. -/
theorem putObject_mem (cfg : apiConfig) (env : Env) (r : Request)
    (b k : GoString) (p : Path) (t : GoString)
    (h : Event.PutObject b k p t ∈ handlerUploadVideo cfg env r) :
    ∃ aspectRatio bytes, env.GetAspectRatio p = some aspectRatio ∧
      env.Read 32 = some bytes ∧ b = cfg.s3Bucket ∧ k = key aspectRatio bytes ∧
      t = "video/mp4".toList := by
  have hk : ∀ s, firstFailure cfg env r = some s → 14 ≤ s.index := fun s hs => by
    have := (handler_failure cfg env r s hs).1 _ h
    simpa [Event.step] using this
  obtain ⟨videoID, token, userID, videoData, file, osFileName, processedFilePath,
    aspectRatio, bytes, -, -, -, -, -, -, -, -, -, -, -, h12, h13, -, htrace⟩ :=
    handler_published cfg env r hk
  rw [htrace] at h
  have hn := putObject_not_mem_publishTail cfg env videoData aspectRatio bytes b k p t
  simp only [List.mem_append, List.mem_cons, List.mem_singleton, hn, reduceCtorEq,
    Event.PutObject.injEq, false_or, or_false, List.not_mem_nil] at h
  obtain ⟨rfl, rfl, rfl, rfl⟩ := h
  exact ⟨aspectRatio, bytes, h12, h13, rfl, rfl, rfl⟩

/-- Every `UpdateVideo` call of the handler follows a `PutObject` call that
returned success, and stores the locator of the object that call uploaded. -/
theorem updateVideo_mem (cfg : apiConfig) (env : Env) (r : Request) (v : Video)
    (h : Event.UpdateVideo v ∈ handlerUploadVideo cfg env r) :
    ∃ (pre post : List Event) (videoData : Video) (aspectRatio : GoString)
      (bytes : List Nat) (p : Path),
      handlerUploadVideo cfg env r =
        pre ++ Event.PutObject cfg.s3Bucket (key aspectRatio bytes) p "video/mp4".toList ::
          post ∧
      Event.UpdateVideo v ∈ post ∧
      env.PutObject cfg.s3Bucket (key aspectRatio bytes) = true ∧
      env.GetAspectRatio p = some aspectRatio ∧ env.Read 32 = some bytes ∧
      v = { videoData with VideoURL := some (newUrl cfg.s3Bucket (key aspectRatio bytes)) } := by
  have hk : ∀ s, firstFailure cfg env r = some s → 14 ≤ s.index := fun s hs => by
    have := (handler_failure cfg env r s hs).1 _ h
    simp only [Event.step] at this
    omega
  obtain ⟨videoID, token, userID, videoData, file, osFileName, processedFilePath,
    aspectRatio, bytes, -, -, -, -, -, -, -, -, -, -, -, h12, h13, -, htrace⟩ :=
    handler_published cfg env r hk
  rw [htrace] at h
  simp only [List.mem_append, List.mem_cons, List.mem_singleton, reduceCtorEq,
    false_or, or_false, List.not_mem_nil] at h
  obtain ⟨hput, hv⟩ := updateVideo_mem_publishTail cfg env videoData aspectRatio bytes v h
  refine ⟨[Event.Parse r.videoID, Event.GetBearerToken r.Header,
      Event.ValidateJWT token cfg.jwtSecret, Event.GetVideo videoID,
      Event.FormFile r.Body, Event.ParseMediaType file.contentType,
      Event.CreateTemp (some osFileName),
      Event.Copy file.size (env.Copy file.size).1 (env.Copy file.size).2,
      Event.Seek, Event.ProcessForFastStart osFileName (some processedFilePath),
      Event.Open processedFilePath, Event.GetAspectRatio processedFilePath,
      Event.Read 32],
    publishTail cfg env videoData aspectRatio bytes ++
      [Event.processedFileClose, Event.osFileClose, Event.Remove osFileName,
        Event.fileClose, Event.readerClose (MaxBytesReader r.Body uploadLimt),
        Event.bodyClose],
    videoData, aspectRatio, bytes, processedFilePath, ?_, ?_, hput, h12, h13, hv⟩
  · rw [htrace]
    simp only [List.cons_append, List.nil_append, List.append_assoc]
  · exact List.mem_append_left _ h

theorem countP_isUpdateVideo_le_one (cfg : apiConfig) (env : Env) (r : Request) :
    (handlerUploadVideo cfg env r).countP Event.isUpdateVideo ≤ 1 := by
  by_cases hk : ∀ s, firstFailure cfg env r = some s → 14 ≤ s.index
  · obtain ⟨videoID, token, userID, videoData, file, osFileName, processedFilePath,
      aspectRatio, bytes, -, -, -, -, -, -, -, -, -, -, -, -, -, -, htrace⟩ :=
      handler_published cfg env r hk
    rw [htrace]
    simp only [publishTail]
    cases env.PutObject cfg.s3Bucket (key aspectRatio bytes) with
    | false => simp [List.countP_cons, Event.isUpdateVideo]
    | true =>
      cases env.UpdateVideo
        { videoData with VideoURL := some (newUrl cfg.s3Bucket (key aspectRatio bytes)) } <;>
        simp [List.countP_cons, Event.isUpdateVideo]
  · push_neg at hk
    obtain ⟨s, hs, hlt⟩ := hk
    have : (handlerUploadVideo cfg env r).countP Event.isUpdateVideo = 0 := by
      rw [List.countP_eq_zero]
      intro e he
      have hstep := (handler_failure cfg env r s hs).1 e he
      cases e <;> simp [Event.isUpdateVideo, Event.step] at hstep ⊢
      omega
    omega

theorem key_injective (aspectRatio : GoString) (b1 b2 : List Nat)
    (h1 : isBytes b1) (h2 : isBytes b2) (h : key aspectRatio b1 = key aspectRatio b2) :
    b1 = b2 := by
  simp only [key, fileName, List.append_assoc] at h
  have h3 := List.append_cancel_left (List.append_cancel_left h)
  exact EncodeToString_injective b1 b2 h1 h2 (List.append_cancel_right h3)

/-! ## Properties of the pipeline -/

/-- C1: the locator round trip.  Whenever the handler stores a record (calls
`UpdateVideo`), for a configured bucket name without a comma and a
classification without a comma, the stored `VideoURL` is the bucket, a comma,
and the key that was passed to `PutObject` (classification, `/`, the raw URL-safe
base64 text of the random bytes, `.mp4`); `dbVideoToSignedVideo` splits it into
exactly these two components, never returns the invalid-URL error on it, and
issues one signing request naming exactly that bucket and that key. -/
theorem locator_round_trip (cfg : apiConfig) (env : Env) (r : Request)
    (sign : GoString → GoString → Nat → Except GoString GoString) (v : Video)
    (hb : ',' ∉ cfg.s3Bucket)
    (hc : ∀ p c, env.GetAspectRatio p = some c → ',' ∉ c)
    (hv : Event.UpdateVideo v ∈ handlerUploadVideo cfg env r) :
    ∃ (aspectRatio : GoString) (bytes : List Nat) (p : Path) (objectKey : GoString),
      env.GetAspectRatio p = some aspectRatio ∧ env.Read 32 = some bytes ∧
      objectKey = aspectRatio ++ "/".toList ++ EncodeToString bytes ++ ".mp4".toList ∧
      Event.PutObject cfg.s3Bucket objectKey p "video/mp4".toList ∈
        handlerUploadVideo cfg env r ∧
      v.VideoURL = some (cfg.s3Bucket ++ ",".toList ++ objectKey) ∧
      Split (cfg.s3Bucket ++ ",".toList ++ objectKey) ',' = [cfg.s3Bucket, objectKey] ∧
      (dbVideoToSignedVideo sign v).err ≠ some SignError.invalidURL ∧
      (dbVideoToSignedVideo sign v).calls = [⟨cfg.s3Bucket, objectKey, 360000⟩] := by
  obtain ⟨pre, post, videoData, aspectRatio, bytes, p, htrace, -, -, h12, h13, rfl⟩ :=
    updateVideo_mem cfg env r v hv
  have hsplit := Split_newUrl cfg.s3Bucket aspectRatio bytes hb (hc p aspectRatio h12)
  have hres := dbVideoToSignedVideo_of_split sign
    { videoData with VideoURL := some (newUrl cfg.s3Bucket (key aspectRatio bytes)) }
    _ _ _ rfl hsplit
  refine ⟨aspectRatio, bytes, p, key aspectRatio bytes, h12, h13, rfl, ?_, rfl, hsplit,
    hres.2.1, hres.1⟩
  rw [htrace]
  simp

/-- The round trip at the sample upload: the record stored for `sampleRequest`
is resolved to one signing request for the configured bucket and the uploaded
key. -/
theorem locator_round_trip_witness :
    ∃ (aspectRatio : GoString) (bytes : List Nat) (p : Path) (objectKey : GoString),
      sampleEnv.GetAspectRatio p = some aspectRatio ∧ sampleEnv.Read 32 = some bytes ∧
      objectKey = aspectRatio ++ "/".toList ++ EncodeToString bytes ++ ".mp4".toList ∧
      Event.PutObject sampleCfg.s3Bucket objectKey p "video/mp4".toList ∈
        handlerUploadVideo sampleCfg sampleEnv sampleRequest ∧
      sampleStored.VideoURL = some (sampleCfg.s3Bucket ++ ",".toList ++ objectKey) ∧
      Split (sampleCfg.s3Bucket ++ ",".toList ++ objectKey) ',' =
        [sampleCfg.s3Bucket, objectKey] ∧
      (dbVideoToSignedVideo sampleSigner sampleStored).err ≠ some SignError.invalidURL ∧
      (dbVideoToSignedVideo sampleSigner sampleStored).calls =
        [⟨sampleCfg.s3Bucket, objectKey, 360000⟩] :=
  locator_round_trip sampleCfg sampleEnv sampleRequest sampleSigner sampleStored
    (by decide) (fun _ c h => by cases h; decide) (by decide)

/-- C7: the object key.  Every key the handler passes to `PutObject` is the
classification returned by `GetAspectRatio`, `/`, `enc(b)` and `.mp4`, where `b`
are the bytes drawn by `rand.Read` and `enc(b)`, the raw URL-safe base64 text of
the 32 bytes, has exactly 43 characters, all in `A-Z`, `a-z`, `0-9`, `-`, `_` (so
none is `=`, `+`, `/` or `,`); the content type sent is `video/mp4`; and the key
depends on the classification and the bytes only: any other request, under any
other configuration and environment, with the same classification and bytes
passes the same key. -/
theorem object_key_format (cfg : apiConfig) (env : Env) (r : Request)
    (b k : GoString) (p : Path) (t : GoString)
    (hr : ∀ bytes, env.Read 32 = some bytes → bytes.length = 32)
    (h : Event.PutObject b k p t ∈ handlerUploadVideo cfg env r) :
    (∃ (aspectRatio : GoString) (bytes : List Nat),
      env.GetAspectRatio p = some aspectRatio ∧ env.Read 32 = some bytes ∧
      k = aspectRatio ++ "/".toList ++ EncodeToString bytes ++ ".mp4".toList ∧
      (EncodeToString bytes).length = 43 ∧
      (∀ x ∈ EncodeToString bytes,
        isURLSafe x ∧ x ≠ '=' ∧ x ≠ '+' ∧ x ≠ '/' ∧ x ≠ ',') ∧
      t = "video/mp4".toList) ∧
    (∀ (cfg2 : apiConfig) (env2 : Env) (r2 : Request) (b2 k2 : GoString) (p2 : Path)
      (t2 : GoString), Event.PutObject b2 k2 p2 t2 ∈ handlerUploadVideo cfg2 env2 r2 →
      env2.GetAspectRatio p2 = env.GetAspectRatio p → env2.Read 32 = env.Read 32 →
      k2 = k) := by
  obtain ⟨aspectRatio, bytes, h12, h13, -, rfl, rfl⟩ := putObject_mem cfg env r b k p t h
  refine ⟨⟨aspectRatio, bytes, h12, h13, rfl, ?_, ?_, rfl⟩, ?_⟩
  · rw [EncodeToString_length, hr bytes h13]
  · intro x hx
    have hmem := EncodeToString_mem bytes x hx
    refine ⟨encodeURL_safe x hmem, ?_, ?_, ?_, ?_⟩ <;>
      (rintro rfl; revert hmem; decide)
  · intro cfg2 env2 r2 b2 k2 p2 t2 h2 e1 e2
    obtain ⟨a2, bytes2, h12b, h13b, -, rfl, -⟩ := putObject_mem cfg2 env2 r2 b2 k2 p2 t2 h2
    rw [e1, h12] at h12b
    rw [e2, h13] at h13b
    cases h12b
    cases h13b
    rfl

/-- The key format at the sample upload. -/
theorem object_key_format_witness :
    ∃ (aspectRatio : GoString) (bytes : List Nat),
      sampleEnv.GetAspectRatio "/tmp/1-tubely-video-mp4.processing".toList =
        some aspectRatio ∧
      sampleEnv.Read 32 = some bytes ∧
      sampleKey = aspectRatio ++ "/".toList ++ EncodeToString bytes ++ ".mp4".toList ∧
      (EncodeToString bytes).length = 43 ∧
      (∀ x ∈ EncodeToString bytes,
        isURLSafe x ∧ x ≠ '=' ∧ x ≠ '+' ∧ x ≠ '/' ∧ x ≠ ',') ∧
      "video/mp4".toList = "video/mp4".toList :=
  (object_key_format sampleCfg sampleEnv sampleRequest "tubely-bucket".toList sampleKey
    "/tmp/1-tubely-video-mp4.processing".toList "video/mp4".toList
    (fun _ h => by cases h; decide) (by decide)).1

/-- C8: no overwrite between uploads.  For every classification and every two
different slices of random bytes (of any length, so of length 32) the two
object keys differ, and so do the two
locators stored under any bucket; in particular two runs of the handler on the
same request under the same configuration (same video id, same file content),
probing the same classification but drawing different random bytes, pass
different keys to `PutObject` and would store different locators. -/
theorem no_overwrite (b1 b2 : List Nat) (hb1 : isBytes b1) (hb2 : isBytes b2)
    (hne : b1 ≠ b2) :
    (∀ aspectRatio : GoString,
      aspectRatio ++ "/".toList ++ EncodeToString b1 ++ ".mp4".toList ≠
        aspectRatio ++ "/".toList ++ EncodeToString b2 ++ ".mp4".toList ∧
      ∀ bucket : GoString,
        newUrl bucket (key aspectRatio b1) ≠ newUrl bucket (key aspectRatio b2)) ∧
    (∀ (cfg : apiConfig) (env1 env2 : Env) (r : Request) (bk1 k1 : GoString) (p1 : Path)
      (t1 bk2 k2 : GoString) (p2 : Path) (t2 : GoString),
      env1.Read 32 = some b1 → env2.Read 32 = some b2 →
      env1.GetAspectRatio p1 = env2.GetAspectRatio p2 →
      Event.PutObject bk1 k1 p1 t1 ∈ handlerUploadVideo cfg env1 r →
      Event.PutObject bk2 k2 p2 t2 ∈ handlerUploadVideo cfg env2 r →
      k1 ≠ k2 ∧ newUrl bk1 k1 ≠ newUrl bk2 k2) := by
  have hkey : ∀ aspectRatio : GoString, key aspectRatio b1 ≠ key aspectRatio b2 :=
    fun a h => hne (key_injective a b1 b2 hb1 hb2 h)
  have hurl : ∀ (aspectRatio bucket : GoString),
      newUrl bucket (key aspectRatio b1) ≠ newUrl bucket (key aspectRatio b2) := by
    intro a bucket h
    simp only [newUrl, List.append_assoc] at h
    exact hkey a (List.append_cancel_left (List.append_cancel_left h))
  refine ⟨fun a => ⟨hkey a, hurl a⟩, ?_⟩
  intro cfg env1 env2 r bk1 k1 p1 t1 bk2 k2 p2 t2 hr1 hr2 hc h1 h2
  obtain ⟨a1, c1, ha1, hc1, rfl, rfl, -⟩ := putObject_mem cfg env1 r bk1 k1 p1 t1 h1
  obtain ⟨a2, c2, ha2, hc2, rfl, rfl, -⟩ := putObject_mem cfg env2 r bk2 k2 p2 t2 h2
  rw [hr1] at hc1
  rw [hr2] at hc2
  rw [hc, ha2] at ha1
  cases hc1
  cases hc2
  cases ha1
  exact ⟨hkey _, hurl _ _⟩

/-- Two sample draws, the bytes 0 to 31 and 32 zero bytes, give different keys
and different locators. -/
theorem no_overwrite_witness :
    ("landscape".toList ++ "/".toList ++ EncodeToString (List.range 32) ++ ".mp4".toList ≠
      "landscape".toList ++ "/".toList ++ EncodeToString (List.replicate 32 0) ++
        ".mp4".toList) ∧
    newUrl "tubely-bucket".toList (key "landscape".toList (List.range 32)) ≠
      newUrl "tubely-bucket".toList (key "landscape".toList (List.replicate 32 0)) :=
  ⟨((no_overwrite (List.range 32) (List.replicate 32 0) (by decide) (by decide)
      (by decide)).1 "landscape".toList).1,
    ((no_overwrite (List.range 32) (List.replicate 32 0) (by decide) (by decide)
      (by decide)).1 "landscape".toList).2 "tubely-bucket".toList⟩

/-- C10: signed-link lifetime and frame.  For a record whose `VideoURL` is
`b,k` with no comma in `b` or `k`, `dbVideoToSignedVideo` calls the signer
exactly once, with bucket `b`, key `k` and the lifetime 360000, which is
100 * 60 * 60 whatever the record; if the signer succeeds the result is the
input record with `VideoURL` replaced by the signed URL, all other fields
unchanged, and no error; if the signer fails the returned record is the input
record. -/
theorem signed_link_lifetime
    (sign : GoString → GoString → Nat → Except GoString GoString) (v : Video)
    (b k : GoString) (hb : ',' ∉ b) (hk : ',' ∉ k)
    (hv : v.VideoURL = some (b ++ ",".toList ++ k)) :
    (dbVideoToSignedVideo sign v).calls = [⟨b, k, 360000⟩] ∧
    (360000 : Nat) = 100 * 60 * 60 ∧
    (∀ u, sign b k 360000 = .ok u →
      (dbVideoToSignedVideo sign v).video = { v with VideoURL := some u } ∧
      (dbVideoToSignedVideo sign v).video.ID = v.ID ∧
      (dbVideoToSignedVideo sign v).video.UserID = v.UserID ∧
      (dbVideoToSignedVideo sign v).video.Rest = v.Rest ∧
      (dbVideoToSignedVideo sign v).err = none) ∧
    (∀ e, sign b k 360000 = .error e →
      (dbVideoToSignedVideo sign v).video = v ∧
      (dbVideoToSignedVideo sign v).err = some (SignError.presignFailed e)) := by
  have hs : Split (b ++ ",".toList ++ k) ',' = [b, k] := by
    have e : b ++ ",".toList ++ k = b ++ ',' :: k := by simp
    rw [e, Split_append _ _ _ hb, Split_of_not_mem _ _ hk]
  obtain ⟨hcalls, -, hok, herr⟩ := dbVideoToSignedVideo_of_split sign v _ b k hv hs
  refine ⟨hcalls, by norm_num, ?_, ?_⟩
  · intro u hu
    rw [hok u hu]
    exact ⟨rfl, rfl, rfl, rfl, rfl⟩
  · intro e he
    rw [herr e he]
    exact ⟨rfl, rfl⟩

/-- The resolver at the sample record and the sample signer. -/
theorem signed_link_lifetime_witness :
    (dbVideoToSignedVideo sampleSigner sampleStored).calls =
      [⟨"tubely-bucket".toList, sampleKey, 360000⟩] ∧
    (360000 : Nat) = 100 * 60 * 60 :=
  ⟨(signed_link_lifetime sampleSigner sampleStored "tubely-bucket".toList sampleKey
      (by decide) (by decide) (by decide)).1,
    (signed_link_lifetime sampleSigner sampleStored "tubely-bucket".toList sampleKey
      (by decide) (by decide) (by decide)).2.1⟩

/-- C9: a malformed locator is rejected distinctly.  `dbVideoToSignedVideo`
returns the invalid-URL error exactly when `VideoURL` is non-nil and does not
contain exactly one comma, that is, when splitting it on the comma yields a
number of components other than two; in that case, and when `VideoURL` is nil,
the signer is not called and the record is returned unchanged. -/
theorem malformed_locator_rejected
    (sign : GoString → GoString → Nat → Except GoString GoString) (v : Video) :
    ((dbVideoToSignedVideo sign v).err = some SignError.invalidURL ↔
        ∃ url, v.VideoURL = some url ∧ url.count ',' ≠ 1) ∧
      (∀ url, v.VideoURL = some url →
        ((Split url ',').length ≠ 2 ↔ url.count ',' ≠ 1)) ∧
      ((dbVideoToSignedVideo sign v).err = some SignError.invalidURL ∨ v.VideoURL = none →
        (dbVideoToSignedVideo sign v).calls = [] ∧ (dbVideoToSignedVideo sign v).video = v) := by
  have hlen : ∀ url : GoString, (Split url ',').length ≠ 2 ↔ url.count ',' ≠ 1 := by
    intro url
    rw [Split_length]
    omega
  refine ⟨?_, fun url _ => hlen url, ?_⟩
  · unfold dbVideoToSignedVideo
    cases hv : v.VideoURL with
    | none => simp
    | some url =>
      simp only []
      by_cases hl : (Split url ',').length ≠ 2
      · simp [if_pos hl, (hlen url).mp hl]
      · rw [if_neg hl]
        have hc : ¬ url.count ',' ≠ 1 := fun h => hl ((hlen url).mpr h)
        cases sign ((Split url ',').getD 0 []) ((Split url ',').getD 1 []) 360000 <;>
          simpa using hc
  · unfold dbVideoToSignedVideo
    cases hv : v.VideoURL with
    | none => simp
    | some url =>
      simp only []
      by_cases hl : (Split url ',').length ≠ 2
      · simp [if_pos hl]
      · rw [if_neg hl]
        cases sign ((Split url ',').getD 0 []) ((Split url ',').getD 1 []) 360000 <;> simp


/-- Fail-fast on the failures the handler detects (for the step `copySeek`, an
error of the seek only).  (1) When such a step fails, every call the handler
makes belongs to that step or to an earlier one (a deferred release counting
with the step that acquired the resource), and exactly one response is written,
an error response.  (2) After an owner mismatch or a rejected content type no temporary
file is created, no transform is run and no object is uploaded.  (3) After a
failure of `ProcessForFastStart` neither `PutObject` nor `UpdateVideo` is
called.  (4) `UpdateVideo` is called at most once, and (5) only after a
`PutObject` call that returned success. -/
theorem fail_fast (cfg : apiConfig) (env : Env) (r : Request) :
    (∀ k, firstFailure cfg env r = some k →
      (∀ e ∈ handlerUploadVideo cfg env r, e.step ≤ k.index) ∧
      ∃ code, responses (handlerUploadVideo cfg env r) = [(code, none)] ∧ 400 ≤ code) ∧
    (firstFailure cfg env r = some Step.ownerCheck ∨
        firstFailure cfg env r = some Step.mediaType →
      ∀ e ∈ handlerUploadVideo cfg env r,
        (∀ c, e ≠ Event.CreateTemp c) ∧ (∀ n o, e ≠ Event.ProcessForFastStart n o) ∧
        (∀ b k p t, e ≠ Event.PutObject b k p t)) ∧
    (firstFailure cfg env r = some Step.fastStart →
      ∀ e ∈ handlerUploadVideo cfg env r,
        (∀ b k p t, e ≠ Event.PutObject b k p t) ∧ (∀ v, e ≠ Event.UpdateVideo v)) ∧
    (handlerUploadVideo cfg env r).countP Event.isUpdateVideo ≤ 1 ∧
    (∀ v, Event.UpdateVideo v ∈ handlerUploadVideo cfg env r →
      ∃ pre post b k p t,
        handlerUploadVideo cfg env r = pre ++ Event.PutObject b k p t :: post ∧
        Event.UpdateVideo v ∈ post ∧ env.PutObject b k = true) := by
  refine ⟨?_, ?_, ?_, countP_isUpdateVideo_le_one cfg env r, ?_⟩
  · intro k hk
    obtain ⟨hsteps, hresp⟩ := handler_failure cfg env r k hk
    exact ⟨hsteps, k.status, hresp, by cases k <;> simp [Step.status]⟩
  · intro hk e he
    have hstep : e.step ≤ 7 := by
      rcases hk with hk | hk
      · exact le_trans ((handler_failure cfg env r _ hk).1 e he) (by decide)
      · exact (handler_failure cfg env r _ hk).1 e he
    refine ⟨?_, ?_, ?_⟩ <;> intros <;> rintro rfl <;> simp [Event.step] at hstep
  · intro hk e he
    have hstep : e.step ≤ 10 := (handler_failure cfg env r _ hk).1 e he
    refine ⟨?_, ?_⟩ <;> intros <;> rintro rfl <;> simp [Event.step] at hstep
  · intro v hv
    obtain ⟨pre, post, -, aspectRatio, bytes, p, htrace, hpost, hput, -, -, -⟩ :=
      updateVideo_mem cfg env r v hv
    exact ⟨pre, post, _, _, _, _, htrace, hpost, hput⟩

/-- C6: the status codes.  The handler writes exactly one response.  Its status
is 400 exactly when the first failing check is the id parse, the retrieval of
the `video` field or the content-type check; 401 exactly when it is the bearer
token, the JWT validation or the owner check; 500 exactly when it is the record
lookup, the temp-file creation, the seek, the transform, the opening of the
transformed file, the probe, the random key, `PutObject` or `UpdateVideo`; and
200 exactly when no step fails, in which case the body is the record that was
passed to `UpdateVideo`. -/
theorem status_mapping (cfg : apiConfig) (env : Env) (r : Request) :
    ∃ code body, responses (handlerUploadVideo cfg env r) = [(code, body)] ∧
      (code = 400 ↔ firstFailure cfg env r = some Step.parseID ∨
        firstFailure cfg env r = some Step.formFile ∨
        firstFailure cfg env r = some Step.mediaType) ∧
      (code = 401 ↔ firstFailure cfg env r = some Step.bearerToken ∨
        firstFailure cfg env r = some Step.validateJWT ∨
        firstFailure cfg env r = some Step.ownerCheck) ∧
      (code = 500 ↔ firstFailure cfg env r = some Step.getVideo ∨
        firstFailure cfg env r = some Step.createTemp ∨
        firstFailure cfg env r = some Step.copySeek ∨
        firstFailure cfg env r = some Step.fastStart ∨
        firstFailure cfg env r = some Step.openProcessed ∨
        firstFailure cfg env r = some Step.aspectRatio ∨
        firstFailure cfg env r = some Step.randomKey ∨
        firstFailure cfg env r = some Step.putObject ∨
        firstFailure cfg env r = some Step.updateVideo) ∧
      (code = 200 ↔ firstFailure cfg env r = none) ∧
      (firstFailure cfg env r = none →
        ∃ v, body = some v ∧ Event.UpdateVideo v ∈ handlerUploadVideo cfg env r ∧
          env.UpdateVideo v = true) := by
  rcases hff : firstFailure cfg env r with _ | k
  · obtain ⟨videoID, token, userID, videoData, file, osFileName, processedFilePath,
      aspectRatio, bytes, -, -, -, -, -, -, -, -, -, -, -, -, -, hpf, htrace⟩ :=
      handler_published cfg env r (fun k hk => by rw [hff] at hk; cases hk)
    rw [hff] at hpf
    have hput : env.PutObject cfg.s3Bucket (key aspectRatio bytes) = true := by
      rcases Bool.eq_false_or_eq_true (env.PutObject cfg.s3Bucket (key aspectRatio bytes))
        with h | h
      · exact h
      · simp [publishFailure, h] at hpf
    have hupd : env.UpdateVideo
        { videoData with VideoURL := some (newUrl cfg.s3Bucket (key aspectRatio bytes)) } =
        true := by
      rcases Bool.eq_false_or_eq_true (env.UpdateVideo
        { videoData with VideoURL := some (newUrl cfg.s3Bucket (key aspectRatio bytes)) })
        with h | h
      · exact h
      · simp [publishFailure, hput, h] at hpf
    refine ⟨200, some { videoData with
      VideoURL := some (newUrl cfg.s3Bucket (key aspectRatio bytes)) }, ?_, ?_⟩
    · rw [htrace]
      simp [publishTail, hput, hupd, responses]
    · refine ⟨by simp, by simp, by simp, by simp, fun _ => ⟨_, rfl, ?_, hupd⟩⟩
      rw [htrace]
      simp [publishTail, hput, hupd]
  · obtain ⟨-, hresp⟩ := handler_failure cfg env r k hff
    refine ⟨k.status, none, hresp, ?_⟩
    cases k <;> simp [Step.status]

/-- C2, the code at an oversized upload: the ceiling is 1 GiB, the body of
`oversizedRequest` exceeds it, and reading that body through the byte-ceiling
reader of line 44 would fail; yet `r.FormFile` reads `r.Body` itself, which has
no ceiling, so the object is uploaded, the record is updated and the response
is 200. -/
theorem oversized_upload_is_published :
    uploadLimt = 1073741824 ∧ uploadLimt < oversizedRequest.Body.size ∧
    (MaxBytesReader oversizedRequest.Body uploadLimt).readAll = none ∧
    Event.FormFile ⟨1073741825, none⟩ ∈
      handlerUploadVideo sampleCfg sampleEnv oversizedRequest ∧
    Event.PutObject "tubely-bucket".toList sampleKey
      "/tmp/1-tubely-video-mp4.processing".toList "video/mp4".toList ∈
      handlerUploadVideo sampleCfg sampleEnv oversizedRequest ∧
    Event.UpdateVideo sampleStored ∈
      handlerUploadVideo sampleCfg sampleEnv oversizedRequest ∧
    responses (handlerUploadVideo sampleCfg sampleEnv oversizedRequest) =
      [(200, some sampleStored)] := by
  decide

/-- C4, the code at a successful upload started on an empty set of local files:
the staged temporary file is removed, but the transformed file written by
`ProcessForFastStart` is still there when the handler returns. -/
theorem transformed_file_left_behind :
    firstFailure sampleCfg sampleEnv sampleRequest = none ∧
    Event.Remove "/tmp/1-tubely-video-mp4".toList ∈
      handlerUploadVideo sampleCfg sampleEnv sampleRequest ∧
    (∀ name, Event.Remove name ∈ handlerUploadVideo sampleCfg sampleEnv sampleRequest →
      name = "/tmp/1-tubely-video-mp4".toList) ∧
    localFiles (handlerUploadVideo sampleCfg sampleEnv sampleRequest) [] =
      ["/tmp/1-tubely-video-mp4.processing".toList] := by
  refine ⟨by decide, by decide, ?_, by decide⟩
  intro name h
  have e : handlerUploadVideo sampleCfg sampleEnv sampleRequest =
      [Event.Parse "7".toList, Event.GetBearerToken "Bearer token".toList,
        Event.ValidateJWT "token".toList "secret".toList, Event.GetVideo 7,
        Event.FormFile ⟨2048, none⟩, Event.ParseMediaType "video/mp4".toList,
        Event.CreateTemp (some "/tmp/1-tubely-video-mp4".toList),
        Event.Copy 1024 1024 true, Event.Seek,
        Event.ProcessForFastStart "/tmp/1-tubely-video-mp4".toList
          (some "/tmp/1-tubely-video-mp4.processing".toList),
        Event.Open "/tmp/1-tubely-video-mp4.processing".toList,
        Event.GetAspectRatio "/tmp/1-tubely-video-mp4.processing".toList,
        Event.Read 32,
        Event.PutObject "tubely-bucket".toList sampleKey
          "/tmp/1-tubely-video-mp4.processing".toList "video/mp4".toList,
        Event.UpdateVideo sampleStored, Event.respondWithJSON 200 sampleStored,
        Event.processedFileClose, Event.osFileClose,
        Event.Remove "/tmp/1-tubely-video-mp4".toList, Event.fileClose,
        Event.readerClose ⟨2048, some 1073741824⟩, Event.bodyClose] := by
    decide
  rw [e] at h
  simp only [List.mem_cons, reduceCtorEq, false_or, Event.Remove.injEq, List.mem_nil_iff,
    or_false] at h
  exact h

/-- C5, the code at a write fault of the copy: `io.Copy` writes none of the
1024 uploaded bytes and returns an error, the seek succeeds, and the handler
goes on to run the transform on the empty staged file, uploads the object,
updates the record and answers 200. -/
theorem copy_fault_is_ignored :
    Event.Copy 1024 0 false ∈ handlerUploadVideo sampleCfg copyFaultEnv sampleRequest ∧
    Event.ProcessForFastStart "/tmp/1-tubely-video-mp4".toList
      (some "/tmp/1-tubely-video-mp4.processing".toList) ∈
      handlerUploadVideo sampleCfg copyFaultEnv sampleRequest ∧
    Event.PutObject "tubely-bucket".toList sampleKey
      "/tmp/1-tubely-video-mp4.processing".toList "video/mp4".toList ∈
      handlerUploadVideo sampleCfg copyFaultEnv sampleRequest ∧
    Event.UpdateVideo sampleStored ∈
      handlerUploadVideo sampleCfg copyFaultEnv sampleRequest ∧
    responses (handlerUploadVideo sampleCfg copyFaultEnv sampleRequest) =
      [(200, some sampleStored)] := by
  decide

/-- C3, the code when the step copy+seek is the first to fail, by a write fault
of the copy: every earlier step succeeds, `io.Copy` returns an error, and the
handler detects no failure; the calls of the six later steps are all made, from
`ProcessForFastStart` to `UpdateVideo`, and the one response written is not an
error response but a 200 carrying the updated record. -/
theorem copy_fault_runs_later_steps :
    (copyFaultEnv.Copy 1024).2 = false ∧
    (handlerUploadVideo sampleCfg copyFaultEnv sampleRequest).take 8 =
      [Event.Parse "7".toList, Event.GetBearerToken "Bearer token".toList,
        Event.ValidateJWT "token".toList "secret".toList, Event.GetVideo 7,
        Event.FormFile ⟨2048, none⟩, Event.ParseMediaType "video/mp4".toList,
        Event.CreateTemp (some "/tmp/1-tubely-video-mp4".toList),
        Event.Copy 1024 0 false] ∧
    firstFailure sampleCfg copyFaultEnv sampleRequest = none ∧
    (handlerUploadVideo sampleCfg copyFaultEnv sampleRequest).filter
        (fun e => decide (Step.copySeek.index < e.step)) =
      [Event.ProcessForFastStart "/tmp/1-tubely-video-mp4".toList
          (some "/tmp/1-tubely-video-mp4.processing".toList),
        Event.Open "/tmp/1-tubely-video-mp4.processing".toList,
        Event.GetAspectRatio "/tmp/1-tubely-video-mp4.processing".toList,
        Event.Read 32,
        Event.PutObject "tubely-bucket".toList sampleKey
          "/tmp/1-tubely-video-mp4.processing".toList "video/mp4".toList,
        Event.UpdateVideo sampleStored, Event.processedFileClose] ∧
    responses (handlerUploadVideo sampleCfg copyFaultEnv sampleRequest) =
      [(200, some sampleStored)] := by
  decide

end Tubely
